import Mathlib

/-!
Verification of the cosmological particle simulation of
`src/src/actors/particles.rs` (bloodfeast/physics_library_testing_ground).

The simulation state and every operation on it are translated from the Rust
source into Lean over `ℝ` (the source uses `f64`).  The external `rs_physics`
crate is not part of this repository: its data carriers (`ParticleData`,
`Quad`, the cosmological `Particle`) are reconstructed from the fields the
source reads and writes, the Barnes-Hut solver (`build_tree` +
`compute_net_force`) is kept abstract as a `Solver` parameter, and the small
particle methods the source calls (`apply_force`, `update_position`,
`Velocity2D.magnitude`, `Velocity2D.direction`) are modelled from the
specification, as marked on each one.
-/

namespace CosmoSim

open Classical

/-- Data carrier of the external solver, as the source constructs and reads
it (`convert_to_particle_data`): fields `x`, `y`, `mass`. -/
structure ParticleData where
  x : ℝ
  y : ℝ
  mass : ℝ

/-- Axis-aligned square region: center and half size, as the source
constructs it in `CosmologicalSimulation::new`. -/
structure Quad where
  cx : ℝ
  cy : ℝ
  half_size : ℝ

/-- Velocity with the two components the source reads and writes. -/
structure Velocity2D where
  x : ℝ
  y : ℝ

/-- Modelled from the spec: the speed `v = |velocity|` of section 4.4, the
Euclidean magnitude of the velocity vector (the method body lives in the
external `rs_physics` crate). -/
noncomputable def Velocity2D.magnitude (v : Velocity2D) : ℝ :=
  Real.sqrt (v.x ^ 2 + v.y ^ 2)

/-- Modelled from the spec: the current velocity direction used by the drag
delta of section 4.4 step 5, a unit vector along the velocity (the method
body lives in the external `rs_physics` crate).  At zero magnitude the
division yields `0` by the Lean convention. -/
noncomputable def Velocity2D.direction (v : Velocity2D) : Velocity2D :=
  ⟨v.x / v.magnitude, v.y / v.magnitude⟩

/-- Cosmological particle of the external crate, with the fields the source
reads and writes: `position`, `velocity`, `mass`, `spin`, `age`, `density`. -/
structure Particle where
  position : ℝ × ℝ
  velocity : Velocity2D
  mass : ℝ
  spin : ℝ
  age : ℝ
  density : ℝ

/-- Modelled from the spec: the force-to-velocity update of section 4.5
step 1, `v += (F/m) * dt` (the method body lives in the external
`rs_physics` crate).  Mutates only the velocity. -/
noncomputable def Particle.apply_force (p : Particle) (fx fy dt : ℝ) : Particle :=
  { p with velocity := ⟨p.velocity.x + fx / p.mass * dt, p.velocity.y + fy / p.mass * dt⟩ }

/-- Modelled from the spec: the position update of section 4.5 step 4,
`p += v * dt` (the method body lives in the external `rs_physics` crate).
Mutates only the position. -/
def Particle.update_position (p : Particle) (dt : ℝ) : Particle :=
  { p with position := (p.position.1 + p.velocity.x * dt, p.position.2 + p.velocity.y * dt) }

/-- The simulation resource, field for field from the Rust struct
`CosmologicalSimulation` (vectors become lists). -/
structure CosmologicalSimulation where
  particles : List Particle
  standard_particles : List ParticleData
  bounds : Quad
  standard_bounds : Quad
  time : ℝ
  dt : ℝ
  theta : ℝ
  g : ℝ
  initial_radius : ℝ

/-- The external Barnes-Hut solver as a black box: `build_tree` composed with
`compute_net_force`, taking the particle snapshot, the bounding quad, the
queried particle, `theta` and `g`, and returning a net force. -/
def Solver : Type :=
  List ParticleData → Quad → ParticleData → ℝ → ℝ → ℝ × ℝ

/-- The per-particle orbital factor of `step`:
`(p.mass / 1000.0).min(10.0).max(0.1)`. -/
noncomputable def orbitalFactor (mass : ℝ) : ℝ :=
  max (min (mass / 1000) 10) 0.1

/-- The force-phase adjustment of `step` (lines 152-171): a raw solver force
gets a perpendicular (90-degree rotated) component of strength
`0.75 * orbital_factors[i]` added when the particle has mass below 1000 and
distance from the origin above 0.1; otherwise the raw force passes through. -/
noncomputable def adjustedForce (raw : ℝ × ℝ) (p : ParticleData) : ℝ × ℝ :=
  let dist := Real.sqrt (p.x ^ 2 + p.y ^ 2)
  if p.mass < 1000 ∧ dist > 0.1 then
    let orbital_strength := 0.75 * orbitalFactor p.mass
    (raw.1 + -raw.2 * orbital_strength, raw.2 + raw.1 * orbital_strength)
  else raw

/-- The complete per-particle net-force array of `step` (lines 150-172),
computed from the `standard_particles` snapshot as it is at tick entry. -/
noncomputable def netForces (solver : Solver) (s : CosmologicalSimulation) : List (ℝ × ℝ) :=
  s.standard_particles.map fun p =>
    adjustedForce (solver s.standard_particles s.standard_bounds p s.theta s.g) p

/-- The optimal orbital speed of `step` (line 188):
`(p.mass / 1000.0).sqrt() * 0.2`. -/
noncomputable def optimalOrbitSpeed (mass : ℝ) : ℝ :=
  Real.sqrt (mass / 1000) * 0.2

/-- The three-way drag policy of `step` (lines 189-201), a function of the
current speed and the optimal orbital speed. -/
noncomputable def dragStrength (vel_magnitude optimal_orbit_speed : ℝ) : ℝ :=
  let speed_diff := |vel_magnitude - optimal_orbit_speed|
  if vel_magnitude > optimal_orbit_speed then speed_diff * 0.015
  else if vel_magnitude < optimal_orbit_speed * 0.314 then -speed_diff * 0.05
  else speed_diff * 0.001

/-- The drag force of `step` (lines 203-205): minus the drag strength times
the current velocity direction. -/
noncomputable def dragForce (v : Velocity2D) (mass : ℝ) : ℝ × ℝ :=
  let drag_strength := dragStrength v.magnitude (optimalOrbitSpeed mass)
  let drag_angle := v.direction
  (-drag_strength * drag_angle.x, -drag_strength * drag_angle.y)

/-- The per-particle integration of the update phase of `step`
(lines 178-211): apply the precomputed net force, then the drag force, then
update the position.  Applied to every particle, with no gate on its mass. -/
noncomputable def integrateParticle (dt : ℝ) (f : ℝ × ℝ) (p : Particle) : Particle :=
  let p1 := p.apply_force f.1 f.2 dt
  let drag := dragForce p1.velocity p1.mass
  let p2 := p1.apply_force drag.1 drag.2 dt
  p2.update_position dt

/-- Re-synchronisation of a standard particle after the update phase of
`step` (lines 219-220): only `x` and `y` are written. -/
def syncStandard (sp : ParticleData) (p : Particle) : ParticleData :=
  { sp with x := p.position.1, y := p.position.2 }

/-- One tick, from `CosmologicalSimulation::step` (lines 137-224): first the
complete force array is computed from the tick-entry `standard_particles`
snapshot, then every particle is integrated against its entry in that array,
the standard particles are re-synchronised to the new positions, and the
clock advances by `dt`.  The `apply_boundary_conditions` call of line 214 is
commented out in the source and therefore absent here. -/
noncomputable def step (solver : Solver) (s : CosmologicalSimulation) : CosmologicalSimulation :=
  let forces := netForces solver s
  let newParticles := List.zipWith (integrateParticle s.dt) forces s.particles
  let newStandard := List.zipWith syncStandard s.standard_particles newParticles
  { s with particles := newParticles, standard_particles := newStandard, time := s.time + s.dt }

/-- `CosmologicalSimulation::apply_boundary_conditions` (lines 226-241),
translated literally: the shift applied to an out-of-region coordinate is
`bound_size = bounds.half_size * 4.0`. -/
noncomputable def apply_boundary_conditions (s : CosmologicalSimulation) (p : Particle) : Particle :=
  let bound_size := s.bounds.half_size * 4
  let x := p.position.1
  let y := p.position.2
  let x' :=
    if x < s.bounds.cx - s.bounds.half_size then x + bound_size
    else if x ≥ s.bounds.cx + s.bounds.half_size then x - bound_size
    else x
  let y' :=
    if y < s.bounds.cy - s.bounds.half_size then y + bound_size
    else if y ≥ s.bounds.cy + s.bounds.half_size then y - bound_size
    else y
  { p with position := (x', y') }

/-- The four mass tiers assigned by `modify_particle_masses`
(lines 254-272). -/
inductive MassTier
  | dust
  | asteroid
  | planet
  | sun
deriving DecidableEq

/-- Tier selection of `modify_particle_masses`: the branch taken on the
`mass_type` random draw (lines 257-272). -/
noncomputable def tierOf (mass_type : ℝ) : MassTier :=
  if mass_type < 0.001 then .sun
  else if mass_type < 0.01 then .planet
  else if mass_type < 0.1 then .asteroid
  else .dust

/-- Mass assigned within a tier from the second random draw `r`
(`PI * r.mul_add(a, b)` per branch, lines 259-271). -/
noncomputable def tierMass (t : MassTier) (r : ℝ) : ℝ :=
  match t with
  | .sun => Real.pi * (r * 5000 + 2000)
  | .planet => Real.pi * (r * 500 + 100)
  | .asteroid => Real.pi * (r * 50 + 20)
  | .dust => Real.pi * (r * 10 + 1)

/-- Spin multiplier per tier (lines 260-268; the dust branch leaves spin
unchanged, multiplier 1). -/
noncomputable def tierSpinMultiplier : MassTier → ℝ
  | .dust => 1
  | .asteroid => 5
  | .planet => 10
  | .sun => 20

/-- Lower end of the mass range a tier draws from: the value of
`PI * r.mul_add(a, b)` at `r = 0` (lines 259-271). -/
noncomputable def tierLo : MassTier → ℝ
  | .dust => Real.pi * 1
  | .asteroid => Real.pi * 20
  | .planet => Real.pi * 100
  | .sun => Real.pi * 2000

/-- Upper end (exclusive, the random draw lies in `[0, 1)`) of the mass
range a tier draws from: the value of `PI * r.mul_add(a, b)` at `r = 1`. -/
noncomputable def tierHi : MassTier → ℝ
  | .dust => Real.pi * 11
  | .asteroid => Real.pi * 70
  | .planet => Real.pi * 600
  | .sun => Real.pi * 7000

/-- Reassignment of one cosmological particle by `modify_particle_masses`,
driven by its two random draws. -/
noncomputable def retier (rand : ℝ × ℝ) (p : Particle) : Particle :=
  let t := tierOf rand.1
  { p with mass := tierMass t rand.2, spin := p.spin * tierSpinMultiplier t }

/-- Index-threaded map over the particle list, standing for the
index-parallel loops of the source (their chunking only batches the same
per-index work). -/
noncomputable def mapWithIndex (f : ℕ → Particle → Particle) : ℕ → List Particle → List Particle
  | _, [] => []
  | i, p :: rest => f i p :: mapWithIndex f (i + 1) rest

/-- Mass synchronisation of `modify_particle_masses` (line 275): only the
standard particle mass is written. -/
def syncMass (sp : ParticleData) (p : Particle) : ParticleData :=
  { sp with mass := p.mass }

/-- `CosmologicalSimulation::modify_particle_masses` (lines 243-278): every
particle index draws `mass_type` and a value draw (given here as the random
stream `rand`), gets a tier mass and spin, and the standard particle mass is
synchronised. -/
noncomputable def modify_particle_masses (rand : ℕ → ℝ × ℝ) (s : CosmologicalSimulation) :
    CosmologicalSimulation :=
  let newParticles := mapWithIndex (fun i p => retier (rand i) p) 0 s.particles
  { s with particles := newParticles,
           standard_particles := List.zipWith syncMass s.standard_particles newParticles }

/-- Velocity rotation of `randomize_particle_directions` (lines 290-308):
rotate the unit direction by the random angle and rescale by the current
speed; the zero-speed branch keeps the zero direction. -/
noncomputable def rotateVelocity (angle_variation : ℝ) (p : Particle) : Particle :=
  let current_speed := p.velocity.magnitude
  let current_dir :=
    if current_speed > 0 then (p.velocity.x / current_speed, p.velocity.y / current_speed)
    else ((0 : ℝ), (0 : ℝ))
  let cos_angle := Real.cos angle_variation
  let sin_angle := Real.sin angle_variation
  { p with velocity :=
      ⟨(current_dir.1 * cos_angle - current_dir.2 * sin_angle) * current_speed,
       (current_dir.1 * sin_angle + current_dir.2 * cos_angle) * current_speed⟩ }

/-- `CosmologicalSimulation::randomize_particle_directions` (lines 280-311):
each index draws an angle `rand(i).mul_add(0.5, -0.5) * PI` and its velocity
is rotated by it; positions, masses and the standard particles are
untouched. -/
noncomputable def randomize_particle_directions (rand : ℕ → ℝ) (s : CosmologicalSimulation) :
    CosmologicalSimulation :=
  { s with particles :=
      mapWithIndex (fun i p => rotateVelocity ((rand i * 0.5 + -0.5) * Real.pi) p) 0 s.particles }

/-- Orbital zones of `optimize_for_orbits` (lines 96-109): position and
influence radius `mass.sqrt() * 0.2` of every particle with mass above
1000. -/
noncomputable def orbitalZones (s : CosmologicalSimulation) : List (ℝ × ℝ × ℝ) :=
  (s.particles.filter fun p => decide (p.mass > 1000)).map fun p =>
    (p.position.1, p.position.2, Real.sqrt p.mass * 0.2)

/-- `CosmologicalSimulation::optimize_for_orbits` (lines 94-135): a particle
inside some orbital zone with mass below 100 gets its density raised to at
least 0.8; nothing else changes. -/
noncomputable def optimize_for_orbits (s : CosmologicalSimulation) : CosmologicalSimulation :=
  let zones := orbitalZones s
  { s with particles := s.particles.map fun p =>
      let in_orbit := zones.any fun z =>
        decide (Real.sqrt ((p.position.1 - z.1) ^ 2 + (p.position.2 - z.2.1) ^ 2) < z.2.2) &&
          decide (p.mass < 100)
      if in_orbit then { p with density := max p.density 0.8 } else p }

/-- `convert_to_particle_data` (lines 22-28). -/
def convert_to_particle_data (p : Particle) : ParticleData :=
  { x := p.position.1, y := p.position.2, mass := p.mass }

/-- The error taxonomy entry of spec section 7 raised at initialization. -/
inductive SimulationError
  | InvalidConfiguration
deriving DecidableEq

/-- Modelled from the spec: `create_big_bang_particles` lives in the external
`rs_physics` crate, so it is modelled from spec section 4.2 — it distributes
`count` particles pseudo-randomly (here: driven by the injected stream `rnd`)
within a disk of radius `initial_radius` with outward velocities and positive
mass, and fails with `InvalidConfiguration` when `count` is zero or the
radius non-positive, producing no partial field. -/
noncomputable def create_big_bang_particles (rnd : ℕ → ℝ × ℝ) (num_particles : ℕ)
    (initial_radius : ℝ) : Except SimulationError (List Particle) :=
  if num_particles = 0 ∨ initial_radius ≤ 0 then .error .InvalidConfiguration
  else .ok <| (List.range num_particles).map fun i =>
    { position := (initial_radius * (rnd i).1, initial_radius * (rnd i).2),
      velocity := ⟨(rnd i).1, (rnd i).2⟩,
      mass := 1, spin := 1, age := 0, density := 1 }

/-- `CosmologicalSimulation::new` (lines 52-92): the bounding quads, the
created particle list and its standard mirror.  The creation failure of the
modelled `create_big_bang_particles` propagates, so no partially-initialized
simulation is produced. -/
noncomputable def new (rnd : ℕ → ℝ × ℝ) (num_particles : ℕ) (initial_radius dt theta g : ℝ) :
    Except SimulationError CosmologicalSimulation :=
  (create_big_bang_particles rnd num_particles initial_radius).map fun particles =>
    { particles := particles,
      standard_particles := particles.map convert_to_particle_data,
      bounds := ⟨0, 0, initial_radius * 100⟩,
      standard_bounds := ⟨0, 0, initial_radius * 80⟩,
      time := 0,
      dt := dt,
      theta := theta,
      g := g,
      initial_radius := initial_radius }

/-- The culling condition of `update_simulation` (line 386):
`position.0 ^ 2 + position.1 ^ 2 > visible_radius ^ 2`. -/
def culled (pos : ℝ × ℝ) (visible_radius : ℝ) : Prop :=
  pos.1 ^ 2 + pos.2 ^ 2 > visible_radius ^ 2

/-- Render visibility flag (bevy `Visibility`, abstracted to the two states
the source distinguishes: hidden, or not). -/
inductive Visibility
  | Visible
  | Hidden
deriving DecidableEq

/-- Per-particle visibility outcome of one `update_simulation` pass
(lines 378-391): an entity already hidden returns early and stays hidden; an
entity whose particle is culled is toggled to hidden; otherwise the flag is
unchanged. -/
noncomputable def updateVisibility (prior : Visibility) (pos : ℝ × ℝ) (visible_radius : ℝ) :
    Visibility :=
  if prior = Visibility.Hidden then Visibility.Hidden
  else if culled pos visible_radius then Visibility.Hidden
  else prior

/-- The view radius hard-coded in `update_simulation` (line 374). -/
noncomputable def visible_radius : ℝ := 1440

/-- `update_simulation` (lines 359-414): one `step`, then a render pass that
only rewrites per-entity visibility flags (and transforms, not modelled) —
the particle list itself is read through `get_particles` and never
modified. -/
noncomputable def update_simulation (solver : Solver) (s : CosmologicalSimulation)
    (vis : List Visibility) : CosmologicalSimulation × List Visibility :=
  let s' := step solver s
  (s', List.zipWith (fun v (p : Particle) => updateVisibility v p.position visible_radius)
        vis s'.particles)

/-- Pointwise synchronisation between a standard particle and a cosmological
particle: the mirror the force tree is built from. -/
def MirrorsParticle (sp : ParticleData) (p : Particle) : Prop :=
  sp.x = p.position.1 ∧ sp.y = p.position.2 ∧ sp.mass = p.mass

/-- The synchronisation invariant: `standard_particles` mirrors `particles`
entry for entry (which forces equal lengths). -/
def Synced (s : CosmologicalSimulation) : Prop :=
  List.Forall₂ MirrorsParticle s.standard_particles s.particles

/-- A solver that returns no force anywhere; used to probe `step` at
concrete inputs. -/
def zeroSolver : Solver := fun _ _ _ _ _ => (0, 0)

/-- A massive body (mass 4000, at or above the 1000 threshold) moving at
unit speed; probe input for the update phase of `step`. -/
noncomputable def massiveParticle : Particle :=
  { position := (5, 0), velocity := ⟨1, 0⟩, mass := 4000, spin := 1, age := 0, density := 1 }

/-- A one-particle simulation holding only `massiveParticle`, with `dt = 1`,
its standard mirror in sync. -/
noncomputable def massiveSim : CosmologicalSimulation :=
  { particles := [massiveParticle],
    standard_particles := [⟨5, 0, 4000⟩],
    bounds := ⟨0, 0, 100⟩,
    standard_bounds := ⟨0, 0, 80⟩,
    time := 0, dt := 1, theta := 0.85, g := 0, initial_radius := 1 }

/-- A simulation whose bounding quad is the square of half size 1 around the
origin; probe input for `apply_boundary_conditions`. -/
noncomputable def wrapSim : CosmologicalSimulation :=
  { particles := [], standard_particles := [],
    bounds := ⟨0, 0, 1⟩, standard_bounds := ⟨0, 0, 1⟩,
    time := 0, dt := 1, theta := 1, g := 1, initial_radius := 1 }

/-- A particle outside the left edge of the `wrapSim` region by half a unit,
less than one region width (a region width is `2 * half_size = 2`). -/
noncomputable def strayParticle : Particle :=
  { position := (-1.5, 0), velocity := ⟨0, 0⟩, mass := 1, spin := 1, age := 0, density := 1 }

end CosmoSim

namespace CosmoSim.NaNModel

/-!
A second model of the update phase of `step`, over a value domain that
carries the NaN/infinity fault class of spec section 7: a value is either a
finite number (`some`, represented as a rational) or non-finite (`none`),
and arithmetic propagates non-finiteness the way `f64` propagates NaN.  The
Barnes-Hut forces are an arbitrary input array (the solver is external), and
the square root is an arbitrary function on finite values.  The
`NumericalInstability` recovery itself is not visible in
`src/src/actors/particles.rs` (the arithmetic it guards lives in the
external `rs_physics` crate), so it is modelled from the spec where
marked.
-/

/-- A floating-point value: finite (`some`) or the NaN/infinity fault class
(`none`). -/
abbrev FVal : Type := Option ℚ

/-- Addition, propagating non-finite operands. -/
def fadd (a b : FVal) : FVal := a.bind fun x => b.map fun y => x + y

/-- Subtraction, propagating non-finite operands. -/
def fsub (a b : FVal) : FVal := a.bind fun x => b.map fun y => x - y

/-- Multiplication, propagating non-finite operands. -/
def fmul (a b : FVal) : FVal := a.bind fun x => b.map fun y => x * y

/-- Negation, propagating non-finite operands. -/
def fneg (a : FVal) : FVal := a.map fun x => -x

/-- Absolute value, propagating non-finite operands. -/
def fabs (a : FVal) : FVal := a.map fun x => |x|

/-- Division: non-finite when an operand is non-finite or the divisor is
zero (an `f64` division by zero is infinite or NaN). -/
def fdiv (a b : FVal) : FVal :=
  a.bind fun x => b.bind fun y => if y = 0 then none else some (x / y)

/-- Comparison: false whenever an operand is non-finite, as every `f64`
comparison with a NaN is. -/
def flt (a b : FVal) : Bool :=
  match a, b with
  | some x, some y => decide (x < y)
  | _, _ => false

/-- Square root: an arbitrary square-root model `sq` on non-negative finite
values, non-finite on negative or non-finite input. -/
def fsqrt (sq : ℚ → ℚ) (a : FVal) : FVal :=
  a.bind fun x => if x < 0 then none else some (sq x)

/-- A particle as the update phase sees it: position, velocity and mass
components that may individually be non-finite. -/
structure NParticle where
  px : FVal
  py : FVal
  vx : FVal
  vy : FVal
  mass : FVal
deriving DecidableEq

/-- Modelled from the spec: `NumericalInstability` is "recovered locally by
freezing that particle's velocity update for the current tick" — a candidate
velocity with a non-finite component is discarded and the prior velocity
kept. -/
def guardVelocity (cand prior : FVal × FVal) : FVal × FVal :=
  match cand with
  | (some a, some b) => (some a, some b)
  | _ => prior

/-- The update phase of `step` for one particle (force application, drag,
position update), over fault-carrying values, with the recovery of spec
section 7 wrapped around the velocity update.  The candidate velocity is
computed exactly as in the source; the guard then applies the freeze policy,
and the position still advances by the resulting velocity. -/
def nintegrate (sq : ℚ → ℚ) (dt : ℚ) (f : FVal × FVal) (p : NParticle) : NParticle :=
  let v1x := fadd p.vx (fmul (fdiv f.1 p.mass) (some dt))
  let v1y := fadd p.vy (fmul (fdiv f.2 p.mass) (some dt))
  let vel_magnitude := fsqrt sq (fadd (fmul v1x v1x) (fmul v1y v1y))
  let optimal := fmul (fsqrt sq (fdiv p.mass (some 1000))) (some 0.2)
  let speed_diff := fabs (fsub vel_magnitude optimal)
  let drag_strength :=
    if flt optimal vel_magnitude then fmul speed_diff (some 0.015)
    else if flt vel_magnitude (fmul optimal (some 0.314)) then fneg (fmul speed_diff (some 0.05))
    else fmul speed_diff (some 0.001)
  let dirx := fdiv v1x vel_magnitude
  let diry := fdiv v1y vel_magnitude
  let v2x := fadd v1x (fmul (fdiv (fmul (fneg drag_strength) dirx) p.mass) (some dt))
  let v2y := fadd v1y (fmul (fdiv (fmul (fneg drag_strength) diry) p.mass) (some dt))
  let vfinal : FVal × FVal := guardVelocity (v2x, v2y) (p.vx, p.vy)
  { px := fadd p.px (fmul vfinal.1 (some dt)),
    py := fadd p.py (fmul vfinal.2 (some dt)),
    vx := vfinal.1,
    vy := vfinal.2,
    mass := p.mass }

/-- The whole update phase over the particle list, the force array given (it
is fully computed before this phase starts). -/
def stepWithNaNGuard (sq : ℚ → ℚ) (dt : ℚ) (forces : List (FVal × FVal))
    (ps : List NParticle) : List NParticle :=
  List.zipWith (nintegrate sq dt) forces ps


end CosmoSim.NaNModel

namespace CosmoSim.NaNModel

theorem fadd_none_right (a : FVal) : fadd a none = none := by cases a <;> rfl

theorem fmul_none_left (b : FVal) : fmul none b = none := rfl

theorem fdiv_none_right (a : FVal) : fdiv a none = none := by cases a <;> rfl

/-- The guard never discards to a pair other than the candidate (made of
finite components) or the prior velocity. -/
theorem guardVelocity_cases (cand prior : FVal × FVal) :
    guardVelocity cand prior = prior ∨
      ∃ a b : ℚ, guardVelocity cand prior = (some a, some b) := by
  rcases cand with ⟨cx, cy⟩
  cases cx <;> cases cy <;> simp [guardVelocity]

/-- The guard on a candidate whose first component is non-finite keeps the
prior velocity. -/
theorem guardVelocity_none_left (cy : FVal) (prior : FVal × FVal) :
    guardVelocity (none, cy) prior = prior := by
  cases cy <;> rfl

/-- Every `nintegrate` output has the shape: some candidate velocity is
guarded against the prior one, the result becomes the velocity, and the
position advances by it; the mass is untouched. -/
theorem nintegrate_shape (sq : ℚ → ℚ) (dt : ℚ) (f : FVal × FVal) (p : NParticle) :
    ∃ cand : FVal × FVal,
      nintegrate sq dt f p =
        { px := fadd p.px (fmul (guardVelocity cand (p.vx, p.vy)).1 (some dt)),
          py := fadd p.py (fmul (guardVelocity cand (p.vx, p.vy)).2 (some dt)),
          vx := (guardVelocity cand (p.vx, p.vy)).1,
          vy := (guardVelocity cand (p.vx, p.vy)).2,
          mass := p.mass } :=
  ⟨_, rfl⟩

/-- With a non-finite mass the whole velocity pipeline is non-finite, so the
guard freezes the velocity and the position advances by the prior
velocity. -/
theorem nintegrate_nan_mass (sq : ℚ → ℚ) (dt : ℚ) (f : FVal × FVal) (p : NParticle)
    (h : p.mass = none) :
    nintegrate sq dt f p =
      { px := fadd p.px (fmul p.vx (some dt)),
        py := fadd p.py (fmul p.vy (some dt)),
        vx := p.vx, vy := p.vy, mass := p.mass } := by
  simp only [nintegrate, h, fdiv_none_right, fmul_none_left, fadd_none_right,
    guardVelocity_none_left]

/-- Whatever the force input and the rest of the pipeline do, each output
particle of the guarded update has finite position and velocity as soon as
its input had. -/
theorem nintegrate_preserves_finite (sq : ℚ → ℚ) (dt : ℚ) (f : FVal × FVal) (p : NParticle)
    (h : p.px ≠ none ∧ p.py ≠ none ∧ p.vx ≠ none ∧ p.vy ≠ none) :
    (nintegrate sq dt f p).px ≠ none ∧ (nintegrate sq dt f p).py ≠ none ∧
      (nintegrate sq dt f p).vx ≠ none ∧ (nintegrate sq dt f p).vy ≠ none := by
  obtain ⟨hpx, hpy, hvx, hvy⟩ := h
  obtain ⟨x, hx⟩ := Option.ne_none_iff_exists'.mp hpx
  obtain ⟨y, hy⟩ := Option.ne_none_iff_exists'.mp hpy
  obtain ⟨vx, hvx'⟩ := Option.ne_none_iff_exists'.mp hvx
  obtain ⟨vy, hvy'⟩ := Option.ne_none_iff_exists'.mp hvy
  obtain ⟨cand, hc⟩ := nintegrate_shape sq dt f p
  have hg : (guardVelocity cand (p.vx, p.vy)).1 ≠ none ∧
      (guardVelocity cand (p.vx, p.vy)).2 ≠ none := by
    rcases guardVelocity_cases cand (p.vx, p.vy) with hsame | ⟨a, b, hab⟩
    · rw [hsame]; exact ⟨hvx, hvy⟩
    · rw [hab]; exact ⟨Option.some_ne_none a, Option.some_ne_none b⟩
  obtain ⟨a, ha⟩ := Option.ne_none_iff_exists'.mp hg.1
  obtain ⟨b, hb⟩ := Option.ne_none_iff_exists'.mp hg.2
  rw [hc]
  simp [fadd, fmul, hx, hy, ha, hb]

end CosmoSim.NaNModel

namespace CosmoSim

open Classical

/-- C1: every tick computes the complete per-particle net-force array from
the tick-entry state and only then mutates: the i-th post-tick particle is
the i-th entry particle integrated against the i-th entry of the precomputed
force array, and that array is a function of tick-entry data alone (the
standard-particle snapshot, the bounds, theta, g) — no force computation can
read a position updated in the same tick. -/
theorem step_computes_forces_before_mutation (solver : Solver)
    (s : CosmologicalSimulation) (i : ℕ) :
    ((step solver s).particles[i]? =
      ((netForces solver s)[i]?).bind fun f =>
        (s.particles[i]?).map fun p => integrateParticle s.dt f p)
    ∧ ∀ t : CosmologicalSimulation, t.standard_particles = s.standard_particles →
        t.standard_bounds = s.standard_bounds → t.theta = s.theta → t.g = s.g →
        netForces solver t = netForces solver s := by
  constructor
  · simp only [step]
    rw [List.getElem?_zipWith]
    cases (netForces solver s)[i]? <;> cases s.particles[i]? <;> rfl
  · intro t h1 h2 h3 h4
    simp only [netForces, h1, h2, h3, h4]

/-- C2: the optimal orbital speed is `sqrt(mass / 1000) * 0.2`, strictly
increasing in the particle mass on nonnegative masses; the drag strength is
the three-way piecewise policy on the current speed with
`speed_diff = |v - optimal|` (multipliers 0.015 above optimal, -0.05 below
0.314 times optimal, 0.001 in between); and the drag force is minus the drag
strength times the unit velocity direction. -/
theorem optimal_speed_and_drag_policy :
    (∀ mass : ℝ, optimalOrbitSpeed mass = Real.sqrt (mass / 1000) * 0.2)
    ∧ (∀ m₁ m₂ : ℝ, 0 ≤ m₁ → m₁ < m₂ → optimalOrbitSpeed m₁ < optimalOrbitSpeed m₂)
    ∧ (∀ v opt : ℝ, v > opt → dragStrength v opt = |v - opt| * 0.015)
    ∧ (∀ v opt : ℝ, ¬ v > opt → v < opt * 0.314 → dragStrength v opt = -|v - opt| * 0.05)
    ∧ (∀ v opt : ℝ, ¬ v > opt → ¬ v < opt * 0.314 → dragStrength v opt = |v - opt| * 0.001)
    ∧ (∀ (v : Velocity2D) (mass : ℝ), dragForce v mass =
        (-dragStrength v.magnitude (optimalOrbitSpeed mass) * v.direction.x,
         -dragStrength v.magnitude (optimalOrbitSpeed mass) * v.direction.y)) := by
  refine ⟨fun mass => rfl, ?_, ?_, ?_, ?_, fun v mass => rfl⟩
  · intro m₁ m₂ h0 hlt
    unfold optimalOrbitSpeed
    have hs : Real.sqrt (m₁ / 1000) < Real.sqrt (m₂ / 1000) :=
      Real.sqrt_lt_sqrt (by positivity) (by linarith)
    linarith
  · intro v opt h
    simp [dragStrength, h]
  · intro v opt h1 h2
    simp [dragStrength, h1, h2]
  · intro v opt h1 h2
    simp [dragStrength, h1, h2]

/-- C5: creating the simulation with a zero particle count or a non-positive
initial radius fails with `InvalidConfiguration` and yields no simulation at
all (no partially-initialized field); with a positive count and radius it
succeeds, with exactly `count` particles. -/
theorem new_validates_configuration :
    ∀ (rnd : ℕ → ℝ × ℝ) (num_particles : ℕ) (initial_radius dt theta g : ℝ),
      ((num_particles = 0 ∨ initial_radius ≤ 0) →
        new rnd num_particles initial_radius dt theta g =
          .error SimulationError.InvalidConfiguration)
      ∧ (0 < num_particles → 0 < initial_radius →
          ∃ s, new rnd num_particles initial_radius dt theta g = .ok s ∧
            s.particles.length = num_particles) := by
  intro rnd n r dt theta g
  constructor
  · intro h
    simp only [new, create_big_bang_particles, if_pos h]
    rfl
  · intro hn hr
    have hcond : ¬ (n = 0 ∨ r ≤ 0) := by
      push_neg
      exact ⟨Nat.pos_iff_ne_zero.mp hn, hr⟩
    simp only [new, create_big_bang_particles, if_neg hcond, Except.map]
    exact ⟨_, rfl, by simp⟩

/-- C6: the per-particle culling decision is true exactly when
`x² + y² ≤ r²`, with the boundary `x² + y² = r²` counted visible; and a
culled particle is only hidden, never removed — `update_simulation` returns
exactly the stepped simulation whatever the visibility flags were, with its
particle count unchanged. -/
theorem visibility_culling_inclusive :
    (∀ (p : Particle) (r : ℝ),
       (¬ culled p.position r ↔ p.position.1 ^ 2 + p.position.2 ^ 2 ≤ r ^ 2)
       ∧ (p.position.1 ^ 2 + p.position.2 ^ 2 = r ^ 2 → ¬ culled p.position r))
    ∧ (∀ (solver : Solver) (s : CosmologicalSimulation) (vis : List Visibility),
        (update_simulation solver s vis).1 = step solver s)
    ∧ (∀ (solver : Solver) (s : CosmologicalSimulation) (vis : List Visibility),
        s.standard_particles.length = s.particles.length →
        (update_simulation solver s vis).1.particles.length = s.particles.length) := by
  refine ⟨fun p r => ⟨not_lt, fun h => not_lt.mpr (le_of_eq h)⟩, fun _ _ _ => rfl, ?_⟩
  intro solver s vis h
  simp [update_simulation, step, List.length_zipWith, netForces, h]

/-- C7 counterexample: two passes in which the particle has the same current
position (the origin, well inside the view radius) give different outcomes —
a pass entered with the Hidden flag returns early and stays Hidden while a
pass entered Visible stays Visible — so the per-frame visibility outcome is
not a function of current position and radius alone. -/
theorem hidden_flag_changes_outcome :
    updateVisibility Visibility.Hidden ((0 : ℝ), (0 : ℝ)) 1440 = Visibility.Hidden
    ∧ updateVisibility Visibility.Visible ((0 : ℝ), (0 : ℝ)) 1440 = Visibility.Visible
    ∧ updateVisibility Visibility.Hidden ((0 : ℝ), (0 : ℝ)) 1440 ≠
        updateVisibility Visibility.Visible ((0 : ℝ), (0 : ℝ)) 1440
    ∧ ¬ culled ((0 : ℝ), (0 : ℝ)) 1440 := by
  have hnc : ¬ culled ((0 : ℝ), (0 : ℝ)) 1440 := by
    simp only [culled]
    norm_num
  have h1 : updateVisibility Visibility.Hidden ((0 : ℝ), (0 : ℝ)) 1440 = Visibility.Hidden := by
    simp [updateVisibility]
  have h2 : updateVisibility Visibility.Visible ((0 : ℝ), (0 : ℝ)) 1440 = Visibility.Visible := by
    unfold updateVisibility
    rw [if_neg (by simp), if_neg hnc]
  refine ⟨h1, h2, ?_, hnc⟩
  rw [h1, h2]
  simp

/-- C7 amended: the culling predicate itself is a pure function of the
current position and the view radius (so for a pass entered visible the
outcome is decided by current position alone), but a particle marked hidden
in a prior frame is skipped and stays hidden regardless of its current
position, so the full per-frame outcome also depends on the prior flag. -/
theorem visibility_outcome_vs_prior_flag :
    (∀ (pos : ℝ × ℝ) (r : ℝ), updateVisibility Visibility.Hidden pos r = Visibility.Hidden)
    ∧ (∀ (pos : ℝ × ℝ) (r : ℝ), updateVisibility Visibility.Visible pos r =
        if culled pos r then Visibility.Hidden else Visibility.Visible)
    ∧ (∀ (p q : Particle) (r : ℝ), p.position = q.position →
        (culled p.position r ↔ culled q.position r)) := by
  refine ⟨fun pos r => by simp [updateVisibility], fun pos r => by simp [updateVisibility], ?_⟩
  intro p q r h
  rw [h]

/-- The mass a tier assigns from a value draw in `[0, 1)` lies in the tier
range and is positive. -/
theorem tierMass_bounds (t : MassTier) (r : ℝ) (h0 : 0 ≤ r) (h1 : r < 1) :
    tierLo t ≤ tierMass t r ∧ tierMass t r < tierHi t ∧ 0 < tierMass t r := by
  have hπ := Real.pi_pos
  cases t <;>
    exact ⟨mul_le_mul_of_nonneg_left (by linarith) hπ.le,
      mul_lt_mul_of_pos_left (by linarith) hπ,
      mul_pos hπ (by linarith)⟩

/-- Membership in the index-threaded map comes from an element of the input
list and some index. -/
theorem mem_mapWithIndex (f : ℕ → Particle → Particle) :
    ∀ (i : ℕ) (l : List Particle) (q : Particle), q ∈ mapWithIndex f i l →
      ∃ (j : ℕ) (p : Particle), p ∈ l ∧ q = f j p := by
  intro i l
  induction l generalizing i with
  | nil => intro q hq; simp [mapWithIndex] at hq
  | cons p rest ih =>
    intro q hq
    rw [mapWithIndex] at hq
    rcases List.mem_cons.mp hq with hq | hq
    · exact ⟨i, p, List.mem_cons_self p rest, hq⟩
    · obtain ⟨j, p', hp', hq'⟩ := ih (i + 1) q hq
      exact ⟨j, p', List.mem_cons_of_mem p hp', hq'⟩

/-- C8: every value of the tier draw selects exactly one of the four tiers
(the branch conditions partition the draw space); for a value draw in
`[0, 1)` the assigned mass lies in the tier's numeric range; the four ranges
are pairwise disjoint and monotonically ordered, the spin multipliers
strictly increase with the tier, every assigned mass is strictly positive,
and every particle of `modify_particle_masses` gets such a mass. -/
theorem mass_tier_partition :
    (∀ r : ℝ, (tierOf r = .sun ↔ r < 0.001)
      ∧ (tierOf r = .planet ↔ 0.001 ≤ r ∧ r < 0.01)
      ∧ (tierOf r = .asteroid ↔ 0.01 ≤ r ∧ r < 0.1)
      ∧ (tierOf r = .dust ↔ 0.1 ≤ r))
    ∧ (∀ (t : MassTier) (r : ℝ), 0 ≤ r → r < 1 →
        tierLo t ≤ tierMass t r ∧ tierMass t r < tierHi t ∧ 0 < tierMass t r)
    ∧ (tierHi .dust < tierLo .asteroid ∧ tierHi .asteroid < tierLo .planet ∧
        tierHi .planet < tierLo .sun)
    ∧ (tierSpinMultiplier .dust < tierSpinMultiplier .asteroid ∧
        tierSpinMultiplier .asteroid < tierSpinMultiplier .planet ∧
        tierSpinMultiplier .planet < tierSpinMultiplier .sun)
    ∧ (∀ (rand : ℕ → ℝ × ℝ) (s : CosmologicalSimulation),
        (∀ i, 0 ≤ (rand i).2 ∧ (rand i).2 < 1) →
        ∀ q ∈ (modify_particle_masses rand s).particles, 0 < q.mass) := by
  have hπ := Real.pi_pos
  refine ⟨?_, tierMass_bounds, ?_, ?_, ?_⟩
  · intro r
    by_cases h1 : r < 0.001
    · have ha : ¬ (0.001 : ℝ) ≤ r := not_le.mpr h1
      have hb : ¬ (0.01 : ℝ) ≤ r := not_le.mpr (h1.trans (by norm_num))
      have hc : ¬ (0.1 : ℝ) ≤ r := not_le.mpr (h1.trans (by norm_num))
      simp [tierOf, h1, ha, hb, hc]
    · by_cases h2 : r < 0.01
      · have ha : (0.001 : ℝ) ≤ r := not_lt.mp h1
        have hb : ¬ (0.01 : ℝ) ≤ r := not_le.mpr h2
        have hc : ¬ (0.1 : ℝ) ≤ r := not_le.mpr (h2.trans (by norm_num))
        simp [tierOf, h1, h2, ha, hb, hc]
      · by_cases h3 : r < 0.1
        · have ha : (0.01 : ℝ) ≤ r := not_lt.mp h2
          have hc : ¬ (0.1 : ℝ) ≤ r := not_le.mpr h3
          simp [tierOf, h1, h2, h3, ha, hc]
        · simp [tierOf, h1, h2, h3, not_lt.mp h1, not_lt.mp h2, not_lt.mp h3]
  · exact ⟨mul_lt_mul_of_pos_left (by norm_num) hπ,
      mul_lt_mul_of_pos_left (by norm_num) hπ,
      mul_lt_mul_of_pos_left (by norm_num) hπ⟩
  · refine ⟨?_, ?_, ?_⟩ <;> norm_num [tierSpinMultiplier]
  · intro rand s hr q hq
    simp only [modify_particle_masses] at hq
    obtain ⟨j, p, _, hq'⟩ := mem_mapWithIndex _ 0 s.particles q hq
    have := tierMass_bounds (tierOf (rand j).1) (rand j).2 (hr j).1 (hr j).2
    rw [hq']
    exact this.2.2

/-- Pointwise reading of the synchronisation invariant, by induction over
the two lists. -/
theorem forall₂_getElem? {R : ParticleData → Particle → Prop} :
    ∀ {l₁ : List ParticleData} {l₂ : List Particle}, List.Forall₂ R l₁ l₂ →
      ∀ (i : ℕ) (sp : ParticleData) (p : Particle),
        l₁[i]? = some sp → l₂[i]? = some p → R sp p := by
  intro l₁ l₂ h
  induction h with
  | nil => intro i sp p hsp _; simp at hsp
  | cons hR _ ih =>
    intro i sp p hsp hp
    cases i with
    | zero =>
      simp only [List.getElem?_cons_zero, Option.some_inj] at hsp hp
      rw [← hsp, ← hp]; exact hR
    | succ j => exact ih j sp p (by simpa using hsp) (by simpa using hp)

/-- The freshly created standard mirror of a particle list is in sync. -/
theorem forall₂_convert (l : List Particle) :
    List.Forall₂ MirrorsParticle (l.map convert_to_particle_data) l := by
  induction l with
  | nil => exact List.Forall₂.nil
  | cons p rest ih => exact List.Forall₂.cons ⟨rfl, rfl, rfl⟩ ih

/-- Integration changes position and velocity but never the mass. -/
theorem integrateParticle_mass (dt : ℝ) (f : ℝ × ℝ) (p : Particle) :
    (integrateParticle dt f p).mass = p.mass := rfl

/-- The update phase of `step` keeps the mirror in sync: the written `x`/`y`
are the new positions and the mass is untouched on both sides. -/
theorem step_sync_aux (dt : ℝ) :
    ∀ (fs : List (ℝ × ℝ)) {l₁ : List ParticleData} {l₂ : List Particle},
      List.Forall₂ MirrorsParticle l₁ l₂ →
      List.Forall₂ MirrorsParticle
        (List.zipWith syncStandard l₁ (List.zipWith (integrateParticle dt) fs l₂))
        (List.zipWith (integrateParticle dt) fs l₂) := by
  intro fs l₁ l₂ h
  induction h generalizing fs with
  | nil => simp
  | cons hR hrest ih =>
    cases fs with
    | nil => simp
    | cons f frest =>
      simp only [List.zipWith]
      exact List.Forall₂.cons ⟨rfl, rfl, hR.2.2⟩ (ih frest)

/-- `modify_particle_masses` keeps the mirror in sync: positions are
untouched and the standard mass is rewritten to the fresh particle mass. -/
theorem modify_sync_aux (rand : ℕ → ℝ × ℝ) :
    ∀ (i : ℕ) {l₁ : List ParticleData} {l₂ : List Particle},
      List.Forall₂ MirrorsParticle l₁ l₂ →
      List.Forall₂ MirrorsParticle
        (List.zipWith syncMass l₁ (mapWithIndex (fun j p => retier (rand j) p) i l₂))
        (mapWithIndex (fun j p => retier (rand j) p) i l₂) := by
  intro i l₁ l₂ h
  induction h generalizing i with
  | nil => simp [mapWithIndex]
  | cons hR hrest ih =>
    simp only [mapWithIndex, List.zipWith]
    exact List.Forall₂.cons ⟨hR.1, hR.2.1, rfl⟩ (ih (i + 1))

/-- `randomize_particle_directions` keeps the mirror in sync: it rewrites
only velocities. -/
theorem randomize_sync_aux (rand : ℕ → ℝ) :
    ∀ (i : ℕ) {l₁ : List ParticleData} {l₂ : List Particle},
      List.Forall₂ MirrorsParticle l₁ l₂ →
      List.Forall₂ MirrorsParticle l₁
        (mapWithIndex (fun j p => rotateVelocity ((rand j * 0.5 + -0.5) * Real.pi) p) i l₂) := by
  intro i l₁ l₂ h
  induction h generalizing i with
  | nil => simp [mapWithIndex]
  | cons hR hrest ih =>
    simp only [mapWithIndex]
    exact List.Forall₂.cons ⟨hR.1, hR.2.1, hR.2.2⟩ (ih (i + 1))

/-- A map that changes neither position nor mass keeps the mirror in
sync. -/
theorem map_sync_aux (g : Particle → Particle)
    (hg : ∀ p, (g p).position = p.position ∧ (g p).mass = p.mass) :
    ∀ {l₁ : List ParticleData} {l₂ : List Particle},
      List.Forall₂ MirrorsParticle l₁ l₂ →
      List.Forall₂ MirrorsParticle l₁ (l₂.map g) := by
  intro l₁ l₂ h
  induction h with
  | nil => simp
  | cons hR hrest ih =>
    refine List.Forall₂.cons ⟨?_, ?_, ?_⟩ ih
    · rw [hR.1, (hg _).1]
    · rw [hR.2.1, (hg _).1]
    · rw [hR.2.2, (hg _).2]

/-- C10: the mirror invariant — `particles` and `standard_particles` have
equal length and agree entrywise on `x`/`y`/`mass` — holds for every
simulation `new` produces and is preserved by `step`,
`modify_particle_masses`, `randomize_particle_directions` and
`optimize_for_orbits`, so the force tree is always built from the current
cosmological particle state. -/
theorem standard_particles_stay_synced :
    (∀ s : CosmologicalSimulation, Synced s →
      s.standard_particles.length = s.particles.length ∧
        ∀ (i : ℕ) (sp : ParticleData) (p : Particle),
          s.standard_particles[i]? = some sp → s.particles[i]? = some p →
          sp.x = p.position.1 ∧ sp.y = p.position.2 ∧ sp.mass = p.mass)
    ∧ (∀ (rnd : ℕ → ℝ × ℝ) (n : ℕ) (r dt theta g : ℝ) (s : CosmologicalSimulation),
        new rnd n r dt theta g = .ok s → Synced s)
    ∧ (∀ (solver : Solver) (s : CosmologicalSimulation), Synced s → Synced (step solver s))
    ∧ (∀ (rand : ℕ → ℝ × ℝ) (s : CosmologicalSimulation), Synced s →
        Synced (modify_particle_masses rand s))
    ∧ (∀ (rand : ℕ → ℝ) (s : CosmologicalSimulation), Synced s →
        Synced (randomize_particle_directions rand s))
    ∧ (∀ s : CosmologicalSimulation, Synced s → Synced (optimize_for_orbits s)) := by
  refine ⟨?_, ?_, ?_, ?_, ?_, ?_⟩
  · intro s h
    exact ⟨h.length_eq, forall₂_getElem? h⟩
  · intro rnd n r dt theta g s h
    by_cases hc : n = 0 ∨ r ≤ 0
    · simp [new, create_big_bang_particles, if_pos hc, Except.map] at h
    · simp only [new, create_big_bang_particles, if_neg hc, Except.map,
        Except.ok.injEq] at h
      rw [← h]
      exact forall₂_convert _
  · intro solver s h
    exact step_sync_aux s.dt (netForces solver s) h
  · intro rand s h
    exact modify_sync_aux rand 0 h
  · intro rand s h
    exact randomize_sync_aux rand 0 h
  · intro s h
    refine map_sync_aux _ (fun p => ?_) h
    constructor <;> · dsimp only; split <;> rfl

/-- C3 amended: the perpendicular (90-degree) orbital component is applied
only to particles with mass strictly below 1000 (and distance from the
origin above 0.1) — in the force phase a particle with mass at least 1000
keeps the raw solver force — but the velocity-directed drag delta of the
update phase is applied to every particle, whatever its mass: the post-force
velocity always gets the drag force applied on top. -/
theorem orbital_correction_gates :
    (∀ (raw : ℝ × ℝ) (p : ParticleData), 1000 ≤ p.mass → adjustedForce raw p = raw)
    ∧ (∀ (raw : ℝ × ℝ) (p : ParticleData), p.mass < 1000 →
        Real.sqrt (p.x ^ 2 + p.y ^ 2) > 0.1 →
        adjustedForce raw p =
          (raw.1 + -raw.2 * (0.75 * orbitalFactor p.mass),
           raw.2 + raw.1 * (0.75 * orbitalFactor p.mass)))
    ∧ (∀ (dt : ℝ) (f : ℝ × ℝ) (p : Particle),
        (integrateParticle dt f p).velocity =
          ((p.apply_force f.1 f.2 dt).apply_force
            (dragForce (p.apply_force f.1 f.2 dt).velocity p.mass).1
            (dragForce (p.apply_force f.1 f.2 dt).velocity p.mass).2 dt).velocity) := by
  refine ⟨?_, ?_, fun dt f p => rfl⟩
  · intro raw p h
    unfold adjustedForce
    rw [if_neg]
    rintro ⟨h1, -⟩
    exact absurd h1 (not_lt.mpr h)
  · intro raw p h1 h2
    unfold adjustedForce
    rw [if_pos ⟨h1, h2⟩]

/-- C3 counterexample: a particle of mass 4000 (at least 1000) whose net
solver force is zero still has its velocity changed by the tick — the drag
delta applies to it — where the claim predicts it receives the raw
(zero) gravitational force and no orbital correction of any kind, which
would leave the velocity at 1. -/
theorem massive_particle_receives_drag :
    ((step zeroSolver massiveSim).particles.map fun p => p.velocity.x) = [1 - 0.009 / 4000]
    ∧ (1 - 0.009 / 4000 : ℝ) ≠ 1
    ∧ massiveParticle.mass ≥ 1000
    ∧ massiveParticle.velocity.x = 1
    ∧ netForces zeroSolver massiveSim = [(0, 0)] := by
  have hforce : netForces zeroSolver massiveSim = [(0, 0)] := by
    simp only [netForces, massiveSim, zeroSolver, List.map]
    rw [adjustedForce, if_neg]
    rintro ⟨h1, -⟩
    norm_num at h1
  have happ : Particle.apply_force massiveParticle 0 0 1 = massiveParticle := by
    simp [Particle.apply_force, massiveParticle]
  have hmag : Velocity2D.magnitude ⟨1, 0⟩ = 1 := by
    unfold Velocity2D.magnitude
    norm_num
  have hopt : optimalOrbitSpeed 4000 = 0.4 := by
    unfold optimalOrbitSpeed
    rw [show (4000 : ℝ) / 1000 = 2 ^ 2 by norm_num, Real.sqrt_sq (by norm_num : (0:ℝ) ≤ 2)]
    norm_num
  have hdir : Velocity2D.direction ⟨1, 0⟩ = ⟨1, 0⟩ := by
    unfold Velocity2D.direction
    rw [hmag]
    norm_num
  have hds : dragStrength 1 0.4 = 0.009 := by
    unfold dragStrength
    rw [if_pos (by norm_num : (1 : ℝ) > 0.4)]
    rw [show |(1 : ℝ) - 0.4| = 0.6 by rw [abs_of_nonneg] <;> norm_num]
    norm_num
  have hdf : dragForce ⟨1, 0⟩ 4000 = (-0.009, 0) := by
    unfold dragForce
    rw [hmag, hopt, hds, hdir]
    norm_num
  have hvel : massiveParticle.velocity = ⟨1, 0⟩ := rfl
  have hmass : massiveParticle.mass = 4000 := rfl
  have hint : (integrateParticle 1 (0, 0) massiveParticle).velocity.x = 1 - 0.009 / 4000 := by
    unfold integrateParticle
    dsimp only
    rw [happ, hvel, hmass, hdf]
    simp [Particle.apply_force, Particle.update_position, massiveParticle]
    norm_num
  refine ⟨?_, by norm_num, by norm_num [massiveParticle], rfl, hforce⟩
  have hstep : (step zeroSolver massiveSim).particles =
      [integrateParticle 1 (0, 0) massiveParticle] := by
    show List.zipWith (integrateParticle massiveSim.dt) (netForces zeroSolver massiveSim)
        massiveSim.particles = _
    rw [hforce]
    simp [massiveSim, List.zipWith]
  rw [hstep, List.map_cons, List.map_nil, hint]

/-- C9 (the code at the failing input): a particle outside the left edge of
the bounding region by half a unit — less than one region width, the region
being `[-1, 1]` with width `2 * half_size = 2` — is shifted by
`bound_size = 4 * half_size` and lands at `x = 2.5`, outside the region
beyond its opposite edge instead of inside it; and the default tick indeed
never wraps: the position `step` writes is always the prior position
advanced by the updated velocity times `dt`. -/
theorem boundary_wrap_leaves_region :
    (apply_boundary_conditions wrapSim strayParticle).position = ((2.5 : ℝ), 0)
    ∧ ((-1.5 : ℝ) < wrapSim.bounds.cx - wrapSim.bounds.half_size
        ∧ wrapSim.bounds.cx - wrapSim.bounds.half_size - 2 * wrapSim.bounds.half_size
            < (-1.5 : ℝ))
    ∧ ¬ ((2.5 : ℝ) < wrapSim.bounds.cx + wrapSim.bounds.half_size)
    ∧ (∀ (dt : ℝ) (f : ℝ × ℝ) (p : Particle),
        (integrateParticle dt f p).position =
          (p.position.1 + (integrateParticle dt f p).velocity.x * dt,
           p.position.2 + (integrateParticle dt f p).velocity.y * dt)) := by
  refine ⟨?_, ⟨by norm_num [wrapSim], by norm_num [wrapSim]⟩, by norm_num [wrapSim],
    fun dt f p => rfl⟩
  norm_num [apply_boundary_conditions, wrapSim, strayParticle]

end CosmoSim

namespace CosmoSim.NaNModel

/-- Every member of a zipWith output comes from a pair of members of the
input lists. -/
theorem mem_zipWith_right {α β γ : Type} (f : α → β → γ) :
    ∀ (l₁ : List α) (l₂ : List β) (c : γ), c ∈ List.zipWith f l₁ l₂ →
      ∃ a b, b ∈ l₂ ∧ c = f a b := by
  intro l₁
  induction l₁ with
  | nil => simp
  | cons a t ih =>
    intro l₂ c hc
    cases l₂ with
    | nil => simp at hc
    | cons b t₂ =>
      simp only [List.zipWith, List.mem_cons] at hc
      rcases hc with rfl | hc
      · exact ⟨a, b, List.mem_cons_self b t₂, rfl⟩
      · obtain ⟨a', b', hb', hc'⟩ := ih t₂ c hc
        exact ⟨a', b', List.mem_cons_of_mem b hb', hc'⟩

/-- C4: run the guarded update phase on a particle list whose `j`-th entry
has NaN mass (all positions and velocities finite), with an arbitrary
precomputed force array (the external solver may propagate the NaN into any
force) and an arbitrary square-root model: no particle of the post-tick
state has a NaN position or velocity; the faulty particle keeps its prior
velocity while its position still advances by that prior velocity; and the
tick completes for all particles (the list length is preserved). -/
theorem nan_mass_fault_containment (sq : ℚ → ℚ) (dt : ℚ) (forces : List (FVal × FVal))
    (ps : List NParticle) (j : ℕ) (pj : NParticle)
    (hfin : ∀ p ∈ ps, p.px ≠ none ∧ p.py ≠ none ∧ p.vx ≠ none ∧ p.vy ≠ none)
    (hlen : forces.length = ps.length)
    (hj : ps[j]? = some pj) (hmass : pj.mass = none) :
    (∀ q ∈ stepWithNaNGuard sq dt forces ps,
        q.px ≠ none ∧ q.py ≠ none ∧ q.vx ≠ none ∧ q.vy ≠ none)
    ∧ (stepWithNaNGuard sq dt forces ps)[j]? =
        some { px := fadd pj.px (fmul pj.vx (some dt)),
               py := fadd pj.py (fmul pj.vy (some dt)),
               vx := pj.vx, vy := pj.vy, mass := pj.mass }
    ∧ (stepWithNaNGuard sq dt forces ps).length = ps.length := by
  refine ⟨?_, ?_, ?_⟩
  · intro q hq
    obtain ⟨f, p, hp, rfl⟩ := mem_zipWith_right (nintegrate sq dt) forces ps q hq
    exact nintegrate_preserves_finite sq dt f p (hfin p hp)
  · have hjlt : j < ps.length := by
      by_contra hc
      rw [List.getElem?_eq_none (le_of_not_lt hc)] at hj
      exact Option.noConfusion hj
    have hflt : j < forces.length := by rw [hlen]; exact hjlt
    rw [stepWithNaNGuard, List.getElem?_zipWith, List.getElem?_eq_getElem hflt, hj]
    dsimp only
    rw [nintegrate_nan_mass sq dt forces[j] pj hmass]
  · rw [stepWithNaNGuard, List.length_zipWith, hlen, min_self]

/-- C4 witness: the containment theorem at a concrete two-particle state
whose first particle has NaN mass while the solver returned a NaN force for
the second. -/
theorem nan_mass_fault_containment_witness :
    (∀ q ∈ stepWithNaNGuard id 1 [(some 1, some 0), (none, none)]
        [⟨some 0, some 0, some 3, some 4, none⟩, ⟨some 1, some 2, some 0, some 0, some 5⟩],
        q.px ≠ none ∧ q.py ≠ none ∧ q.vx ≠ none ∧ q.vy ≠ none)
    ∧ (stepWithNaNGuard id 1 [(some 1, some 0), (none, none)]
        [⟨some 0, some 0, some 3, some 4, none⟩,
          ⟨some 1, some 2, some 0, some 0, some 5⟩])[0]? =
        some { px := fadd (some 0) (fmul (some 3) (some 1)),
               py := fadd (some 0) (fmul (some 4) (some 1)),
               vx := some 3, vy := some 4, mass := none }
    ∧ (stepWithNaNGuard id 1 [(some 1, some 0), (none, none)]
        [⟨some 0, some 0, some 3, some 4, none⟩,
          ⟨some 1, some 2, some 0, some 0, some 5⟩]).length = 2 :=
  nan_mass_fault_containment id 1 [(some 1, some 0), (none, none)]
    [⟨some 0, some 0, some 3, some 4, none⟩, ⟨some 1, some 2, some 0, some 0, some 5⟩]
    0 ⟨some 0, some 0, some 3, some 4, none⟩
    (by decide) (by decide) (by decide) (by decide)

end CosmoSim.NaNModel
